import Mathlib

/-!
Verification of the lj_monte_carlo repository (src/src/main.rs and
src/src/surface_tension.rs) against its natural-language specification.

Floating-point values of the Rust source (f64) are embedded as real
numbers; machine counters (usize) as naturals; the trajectory output
interval (i64) as an integer with truncated remainder, matching the
semantics of the Rust percent operator.

The energy module (energy.rs) and the trajectory module (trajectory.rs)
of the repository are not under src/: main.rs only calls into them.  The
Monte-Carlo step is therefore embedded parametrically in an abstract
EnergyModel holding the two functions main.rs calls
(get_particle_energy and get_total_energy); the theorems about the loop
bookkeeping hold for every such model.  Where a concrete instance is
needed, a model written from the specification of the energy module is
provided and marked as such.
-/

namespace LJMC

/-- Constant LJ_EPS from main.rs line 15 (also surface_tension.rs line 7). -/
noncomputable def LJ_EPS : ℝ := 1.0

/-- Constant LJ_SIG from main.rs line 16 (also surface_tension.rs line 8). -/
noncomputable def LJ_SIG : ℝ := 1.0

/-- Constant TRIES_INTENDED from main.rs line 19. -/
noncomputable def TRIES_INTENDED : ℝ := 3.0

/-- Constant DISP_SCALE_FACTOR from main.rs line 22. -/
noncomputable def DISP_SCALE_FACTOR : ℝ := 0.1

/-- Constant SCALE_INTERVAL from main.rs line 23. -/
def SCALE_INTERVAL : ℕ := 5000

/-- The resync interval literal of main.rs line 182. -/
def RESYNC_INTERVAL : ℕ := 10000

/-- Function get_distance_with_pbc of surface_tension.rs lines 24-29:
signed minimum-image separation of two coordinates on one axis. -/
noncomputable def get_distance_with_pbc (x1 x2 length half_length : ℝ) : ℝ :=
  let d := |x1 - x2|
  if d > half_length then d - length
  else if d < -half_length then d + length
  else d

/-- Run parameters of main.rs that stay fixed throughout the Metropolis
loop (lines 44-83): equilibration step count, particle count, temperature,
box edge lengths, the displacement ceiling length/2 (line 83) and the
SCALE switch (line 57). -/
structure MCParams where
  eqSteps : ℕ
  numParticles : ℕ
  temperature : ℝ
  lx : ℝ
  ly : ℝ
  lz : ℝ
  maxDisplacement : ℝ
  scaleOn : Bool

/-- The inverse temperature beta of main.rs line 76. -/
noncomputable def MCParams.beta (p : MCParams) : ℝ := 1.0 / p.temperature

/-- Mutable state of the Metropolis loop of main.rs: the three parallel
coordinate vectors (lines 90-92), the tracked total energy and virial
(line 124), the running sums and counters (lines 125-128) and the current
trial displacement (line 56). -/
structure MCState where
  rx : List ℝ
  ry : List ℝ
  rz : List ℝ
  energy : ℝ
  virial : ℝ
  energySum : ℝ
  virialSum : ℝ
  stepCounter : ℕ
  acceptCounter : ℕ
  displacement : ℝ

/-- The random draws consumed by one trial step of main.rs: the particle
index (line 149), the three uniform [0,1) draws for the displacement
(lines 160-162) and the uniform [0,1) draw of the acceptance test
(line 176). -/
structure StepRand where
  index : ℕ
  ux : ℝ
  uy : ℝ
  uz : ℝ
  uAccept : ℝ

/-- The two functions of the energy module (energy.rs, not under src/)
that main.rs calls: get_particle_energy (lines 157 and 171) and
get_total_energy (lines 124 and 183), each returning an energy-virial
pair.  The run-constant arguments of the Rust calls (particle count, box
lengths, squared cutoff, shift and tail correction) are curried into the
model. -/
structure EnergyModel where
  particleEnergy : List ℝ → List ℝ → List ℝ → ℕ → ℝ × ℝ
  totalEnergy : List ℝ → List ℝ → List ℝ → ℝ × ℝ

/-- Per-axis periodic wrap of main.rs lines 163-168: one conditional add
of the box length if the coordinate is negative, then one conditional
subtract if it is at least the box length. -/
noncomputable def wrapCoord (x L : ℝ) : ℝ :=
  let x1 := if x < 0 then x + L else x
  if x1 ≥ L then x1 - L else x1

/-- Trial-move position update of main.rs lines 160-168: the selected
particle is displaced by an independent uniform offset in each axis and
wrapped; all other coordinates are unchanged.  List indexing uses default
0 out of range (the Rust code would panic there; all statements below use
in-range indices). -/
noncomputable def trialPositions (p : MCParams) (r : StepRand) (s : MCState) :
    List ℝ × List ℝ × List ℝ :=
  (s.rx.set r.index (wrapCoord (s.rx.getD r.index 0 + (r.ux - 0.5) * s.displacement) p.lx),
   s.ry.set r.index (wrapCoord (s.ry.getD r.index 0 + (r.uy - 0.5) * s.displacement) p.ly),
   s.rz.set r.index (wrapCoord (s.rz.getD r.index 0 + (r.uz - 0.5) * s.displacement) p.lz))

/-- Pre-move particle energy and virial of main.rs line 157. -/
noncomputable def oldPE (em : EnergyModel) (r : StepRand) (s : MCState) : ℝ × ℝ :=
  em.particleEnergy s.rx s.ry s.rz r.index

/-- Post-move particle energy and virial of main.rs line 171, evaluated on
the already-updated coordinates. -/
noncomputable def newPE (em : EnergyModel) (p : MCParams) (r : StepRand) (s : MCState) : ℝ × ℝ :=
  em.particleEnergy (trialPositions p r s).1 (trialPositions p r s).2.1
    (trialPositions p r s).2.2 r.index

/-- Energy difference dE of main.rs line 173. -/
noncomputable def deltaE (em : EnergyModel) (p : MCParams) (r : StepRand) (s : MCState) : ℝ :=
  (newPE em p r s).1 - (oldPE em r s).1

/-- Acceptance condition of main.rs line 176: dE negative, or the uniform
draw below exp(-beta * dE). -/
noncomputable def moveAccepted (em : EnergyModel) (p : MCParams) (r : StepRand) (s : MCState) :
    Prop :=
  deltaE em p r s < 0 ∨ r.uAccept < Real.exp (-p.beta * deltaE em p r s)

/-- Drift-control resync of main.rs lines 181-186, reached only inside the
acceptance branch: at step indices divisible by 10000 the tracked energy
and virial are overwritten by get_total_energy on the current (post-move)
coordinates. -/
noncomputable def resyncStep (em : EnergyModel) (step : ℕ) (s : MCState) : MCState :=
  if step % RESYNC_INTERVAL = 0 then
    { s with energy := (em.totalEnergy s.rx s.ry s.rz).1,
             virial := (em.totalEnergy s.rx s.ry s.rz).2 }
  else s

open Classical in
/-- Accept-reject block of main.rs lines 148-192.  On acceptance the moved
coordinates are kept, the accepted counter is incremented, dE and the
virial delta are added, and the nested resync of lines 181-186 may
overwrite energy and virial.  On rejection the displaced coordinates are
restored to the snapshot of lines 152-154, so the state is returned
unchanged. -/
noncomputable def acceptRejectStep (em : EnergyModel) (p : MCParams) (step : ℕ)
    (r : StepRand) (s : MCState) : MCState :=
  if moveAccepted em p r s then
    resyncStep em step
      { s with rx := (trialPositions p r s).1,
               ry := (trialPositions p r s).2.1,
               rz := (trialPositions p r s).2.2,
               acceptCounter := s.acceptCounter + 1,
               energy := s.energy + deltaE em p r s,
               virial := s.virial + ((newPE em p r s).2 - (oldPE em r s).2) }
  else s

/-- Unconditional accumulation of main.rs lines 194-197: every trial step
increments the step counter and adds the current energy and virial to the
running sums. -/
def accumulateStep (s : MCState) : MCState :=
  { s with stepCounter := s.stepCounter + 1,
           energySum := s.energySum + s.energy,
           virialSum := s.virialSum + s.virial }

/-- Phase transition of main.rs lines 199-210: when the step index equals
the equilibration step count, the step counter, accepted counter and both
running sums are zeroed; nothing else is touched. -/
def phaseReset (eqSteps step : ℕ) (s : MCState) : MCState :=
  if step = eqSteps then
    { s with stepCounter := 0, acceptCounter := 0, energySum := 0, virialSum := 0 }
  else s

/-- Observed tries-per-acceptance of main.rs lines 216 and 225: the step
counter divided by the accepted counter, with no guard against a zero
divisor.  (Real division by zero yields the junk value 0 here; f64 yields
an infinity.  Both make the subsequent scale factor vanish, so the
displacement update agrees.) -/
noncomputable def triesPerStep (stepCounter acceptCounter : ℕ) : ℝ :=
  (stepCounter : ℝ) / (acceptCounter : ℝ)

/-- Equilibration progress acceptance rate of main.rs line 217. -/
noncomputable def acceptanceRateEquil (stepCounter acceptCounter : ℕ) : ℝ :=
  1.0 / triesPerStep stepCounter acceptCounter * 100.0

/-- Displacement update of main.rs lines 225-233: increase by
displacement times the scale factor when tries-per-acceptance is below
target minus 0.2 and the displacement is below max_displacement, decrease
when it is above target plus 0.2 and the displacement is positive. -/
noncomputable def scalingDecision (maxDisp : ℝ) (stepCounter acceptCounter : ℕ) (d : ℝ) : ℝ :=
  let tps := triesPerStep stepCounter acceptCounter
  let scale_factor := |TRIES_INTENDED / tps * DISP_SCALE_FACTOR|
  if tps < TRIES_INTENDED - 0.2 ∧ d < maxDisp then d + d * scale_factor
  else if tps > TRIES_INTENDED + 0.2 ∧ d > 0 then d - d * scale_factor
  else d

/-- Displacement-scaling checkpoint of main.rs lines 224-237: during
equilibration, when SCALE is on and the step index is a multiple of
SCALE_INTERVAL, apply the scaling decision and zero the step counter, the
accepted counter and the energy sum.  The virial sum is not touched. -/
noncomputable def scalingBlock (p : MCParams) (step : ℕ) (s : MCState) : MCState :=
  if p.scaleOn = true ∧ step < p.eqSteps ∧ step % SCALE_INTERVAL = 0 then
    { s with displacement :=
               scalingDecision p.maxDisplacement s.stepCounter s.acceptCounter s.displacement,
             stepCounter := 0, acceptCounter := 0, energySum := 0 }
  else s

/-- A scaling decision iterated over a sequence of observed
counter pairs (step counter, accepted counter). -/
noncomputable def applyScalings (maxDisp : ℝ) (obs : List (ℕ × ℕ)) (d : ℝ) : ℝ :=
  obs.foldl (fun dd o => scalingDecision maxDisp o.1 o.2 dd) d

/-- One full trial step of the loop body of main.rs lines 146-250, in
source order: accept-reject block, sum accumulation, phase transition,
scaling checkpoint.  (The progress printing and the trajectory write are
output only; the write condition is embedded separately as writesFrame.) -/
noncomputable def mcStep (em : EnergyModel) (p : MCParams) (step : ℕ)
    (r : StepRand) (s : MCState) : MCState :=
  scalingBlock p step (phaseReset p.eqSteps step (accumulateStep (acceptRejectStep em p step r s)))

/-- Trajectory write condition of main.rs lines 245-249: the step index
taken modulo the output interval with the truncated remainder of the Rust
percent operator on i64, and the frame actually written only past
equilibration or when minimization output is enabled. -/
def writesFrame (outputInterval : ℤ) (eqSteps : ℕ) (outputMinim : Bool) (step : ℕ) : Prop :=
  Int.tmod (step : ℤ) outputInterval = 0 ∧ (eqSteps < step ∨ outputMinim = true)

/-- Final acceptance percentage of main.rs line 260, printed as
"Acceptance" in the end-of-run report. -/
noncomputable def finalAcceptanceRate (stepCounter acceptCounter : ℕ) : ℝ :=
  1.0 / ((acceptCounter : ℝ) / (stepCounter : ℝ)) * 100.0

/-- Modelled from the spec: get_particle_distance_squared of the energy
module (energy.rs), which is not under src/.  Spec section 4.1: the
squared minimum-image distance is the sum of the squared per-axis
minimum-image separations, each given by the per-axis contract embodied
in get_distance_with_pbc. -/
noncomputable def get_particle_distance_squared
    (x1 y1 z1 x2 y2 z2 boxX boxY boxZ halfX halfY halfZ : ℝ) : ℝ :=
  (get_distance_with_pbc x1 x2 boxX halfX) ^ 2 +
    (get_distance_with_pbc y1 y2 boxY halfY) ^ 2 +
    (get_distance_with_pbc z1 z2 boxZ halfZ) ^ 2

/-- Squared minimum-image distance between particles i and j of three
parallel coordinate lists. -/
noncomputable def particleDistSq (rx ry rz : List ℝ) (i j : ℕ) (lx ly lz : ℝ) : ℝ :=
  get_particle_distance_squared (rx.getD i 0) (ry.getD i 0) (rz.getD i 0)
    (rx.getD j 0) (ry.getD j 0) (rz.getD j 0) lx ly lz (lx / 2) (ly / 2) (lz / 2)

/-- Modelled from the spec: pairEnergyAndVirial of the energy module
(energy.rs, not under src/), spec section 4.2: zero beyond the squared
cutoff, otherwise the LJ energy 4 eps ((sig/r)^12 - (sig/r)^6) minus the
shift, and the virial 24 eps (2 (sig/r)^12 - (sig/r)^6), both expressed
through the squared distance. -/
noncomputable def pairEnergyVirial (cutoffSq eShift r2 : ℝ) : ℝ × ℝ :=
  if cutoffSq < r2 then (0, 0)
  else
    (4 * LJ_EPS * ((LJ_SIG ^ 2 / r2) ^ 6 - (LJ_SIG ^ 2 / r2) ^ 3) - eShift,
     24 * LJ_EPS * (2 * (LJ_SIG ^ 2 / r2) ^ 6 - (LJ_SIG ^ 2 / r2) ^ 3))

/-- Modelled from the spec: get_particle_energy of the energy module
(energy.rs, not under src/), spec section 4.2: sums pair energy and
virial between the given particle and every other particle, excluding
self-interaction. -/
noncomputable def particleEnergyLJ (n : ℕ) (lx ly lz cutoffSq eShift : ℝ)
    (rx ry rz : List ℝ) (i : ℕ) : ℝ × ℝ :=
  ∑ j ∈ (Finset.range n).erase i,
    pairEnergyVirial cutoffSq eShift (particleDistSq rx ry rz i j lx ly lz)

/-- Modelled from the spec: get_total_energy of the energy module
(energy.rs, not under src/), spec section 4.2: sums pair energy and
virial over all unique pairs, and adds the energy tail correction once. -/
noncomputable def totalEnergyLJ (n : ℕ) (lx ly lz cutoffSq eCorr eShift : ℝ)
    (rx ry rz : List ℝ) : ℝ × ℝ :=
  (∑ i ∈ Finset.range n, ∑ j ∈ Finset.Ico (i + 1) n,
    pairEnergyVirial cutoffSq eShift (particleDistSq rx ry rz i j lx ly lz)) + (eCorr, 0)

/-- The spec-modelled LJ energy module packaged as an EnergyModel. -/
noncomputable def ljEM (n : ℕ) (lx ly lz cutoffSq eCorr eShift : ℝ) : EnergyModel where
  particleEnergy := particleEnergyLJ n lx ly lz cutoffSq eShift
  totalEnergy := totalEnergyLJ n lx ly lz cutoffSq eCorr eShift

/-- Concrete run parameters for a two-particle system: box 10 x 10 x 10,
temperature 1, cutoff 3 (squared 9), scaling on, five equilibration
steps. -/
noncomputable def pC10 : MCParams :=
  { eqSteps := 5, numParticles := 2, temperature := 1, lx := 10, ly := 10, lz := 10,
    maxDisplacement := 5, scaleOn := true }

/-- The LJ energy model for the two-particle run, with shift and tail
correction disabled. -/
noncomputable def emC10 : EnergyModel := ljEM 2 10 10 10 9 0 0

/-- Concrete initial state for the two-particle run: particles at x = 0
and x = 1 on the x axis, tracked energy 0 and virial 24 as computed by the
LJ model at separation 1, displacement 2. -/
noncomputable def sC10 : MCState :=
  { rx := [0, 1], ry := [0, 0], rz := [0, 0], energy := 0, virial := 24,
    energySum := 0, virialSum := 0, stepCounter := 0, acceptCounter := 0,
    displacement := 2 }

/-- Concrete draws moving particle 0 from x = 0 to x = 0.5, with
acceptance draw 0.6. -/
noncomputable def rC10 : StepRand :=
  { index := 0, ux := 0.75, uy := 0.5, uz := 0.5, uAccept := 0.6 }

/-- An energy model exhibiting the resync control flow observably: the
particle energy follows the x coordinate of the selected particle and the
from-scratch total is the constant pair (42, 17). -/
noncomputable def emAdv : EnergyModel where
  particleEnergy := fun rx _ _ i => (rx.getD i 0, 0)
  totalEnergy := fun _ _ _ => (42, 17)

/-- Run parameters for the one-particle observable-resync run. -/
noncomputable def pAdv : MCParams :=
  { eqSteps := 5, numParticles := 1, temperature := 1, lx := 10, ly := 10, lz := 10,
    maxDisplacement := 5, scaleOn := true }

/-- Initial state for the one-particle observable-resync run. -/
noncomputable def sAdv : MCState :=
  { rx := [0], ry := [0], rz := [0], energy := 0, virial := 0, energySum := 0,
    virialSum := 0, stepCounter := 0, acceptCounter := 0, displacement := 1 }

/-- Draws moving the particle from x = 0 to x = 0.25, acceptance draw
0.9. -/
noncomputable def rAdv : StepRand :=
  { index := 0, ux := 0.75, uy := 0.5, uz := 0.5, uAccept := 0.9 }

/-- One-particle LJ model in the unit box (no pair interactions at all,
so every particle energy is zero). -/
noncomputable def em8 : EnergyModel := ljEM 1 1 1 1 9 0 0

/-- Run parameters with unit box used for the oversized-displacement
run. -/
noncomputable def p8 : MCParams :=
  { eqSteps := 5, numParticles := 1, temperature := 1, lx := 1, ly := 1, lz := 1,
    maxDisplacement := 0.5, scaleOn := true }

/-- State with one particle at x = 0.5 and a displacement of 10 in a unit
box (the CLI accepts any initial displacement). -/
noncomputable def s8 : MCState :=
  { rx := [0.5], ry := [0], rz := [0], energy := 0, virial := 0, energySum := 0,
    virialSum := 0, stepCounter := 0, acceptCounter := 0, displacement := 10 }

/-- Draws giving the trial offset (0.9 - 0.5) * 10 = 4 on x, acceptance
draw 0. -/
noncomputable def r8 : StepRand :=
  { index := 0, ux := 0.9, uy := 0.5, uz := 0.5, uAccept := 0 }

/-- Run parameters for the scaling-checkpoint reset counterexample. -/
noncomputable def pC3 : MCParams :=
  { eqSteps := 6000, numParticles := 1, temperature := 1, lx := 4, ly := 4, lz := 4,
    maxDisplacement := 2, scaleOn := true }

/-- State entering the scaling checkpoint with nonzero sums and counters
7 and 3. -/
noncomputable def sC3 : MCState :=
  { rx := [0], ry := [0], rz := [0], energy := 3, virial := 4, energySum := 2,
    virialSum := 5, stepCounter := 7, acceptCounter := 3, displacement := 9/10 }

/-- Initial particle placement of main.rs lines 93-98: each coordinate is
the axis length times a uniform [0,1) draw. -/
noncomputable def initialCoord (L u : ℝ) : ℝ := L * u

/-- Vacuum-slab relocation offset move_z of main.rs line 106, taking the
already rescaled z length: l_z / scale * vacuum_slab / 2. -/
noncomputable def slabMoveZ (lzScaled scale vslab : ℝ) : ℝ := lzScaled / scale * vslab / 2

/-- Function get_virial of surface_tension.rs lines 11-15. -/
noncomputable def get_virial (distance : ℝ) : ℝ :=
  24 * LJ_EPS / LJ_SIG * ((LJ_SIG / distance) ^ 7 - 2 * (LJ_SIG / distance) ^ 13)

/-- Function eval_surface_tension of surface_tension.rs lines 31-33. -/
noncomputable def eval_surface_tension (box_z p_zz p_xy : ℝ) : ℝ :=
  box_z / 2 * (p_zz - p_xy)

/-- One trajectory frame as consumed by the analyzer main of
surface_tension.rs; the fields read there are the particle count, the box
dimensions, the temperature and the coordinate lists. -/
structure Frame where
  num_particles : ℕ
  box_x : ℝ
  box_y : ℝ
  box_z : ℝ
  temperature : ℝ
  rx : List ℝ
  ry : List ℝ
  rz : List ℝ

/-- Per-pair contribution of the inner loop of surface_tension.rs lines
86-95: minimum-image axis separations, distance via
get_particle_distance_squared, pairwise virial with no cutoff truncation,
and the two trace contributions. -/
noncomputable def pairTrace (f : Frame) (i j : ℕ) : ℝ × ℝ :=
  let dist := Real.sqrt (get_particle_distance_squared
    (f.rx.getD i 0) (f.ry.getD i 0) (f.rz.getD i 0)
    (f.rx.getD j 0) (f.ry.getD j 0) (f.rz.getD j 0)
    f.box_x f.box_y f.box_z (f.box_x / 2) (f.box_y / 2) (f.box_z / 2))
  let dx := get_distance_with_pbc (f.rx.getD i 0) (f.rx.getD j 0) f.box_x (f.box_x / 2)
  let dy := get_distance_with_pbc (f.ry.getD i 0) (f.ry.getD j 0) f.box_y (f.box_y / 2)
  let dz := get_distance_with_pbc (f.rz.getD i 0) (f.rz.getD j 0) f.box_z (f.box_z / 2)
  let virial := get_virial dist
  ((dx * dx + dy * dy) / dist * virial, dz * dz / dist * virial)

/-- Frame traces of surface_tension.rs lines 83-96: trace_xy and trace_z
summed over all unique unordered pairs i < j. -/
noncomputable def frameTraces (f : Frame) : ℝ × ℝ :=
  ∑ i ∈ Finset.range f.num_particles, ∑ j ∈ Finset.Ico (i + 1) f.num_particles, pairTrace f i j

/-- Ideal-gas pressure term of surface_tension.rs lines 65-66 and 77
(named variable_without_name in the source): temperature over eps times
the number density of the first frame. -/
noncomputable def idealTerm (f : Frame) : ℝ :=
  f.temperature / LJ_EPS * ((f.num_particles : ℝ) / (f.box_x * f.box_y * f.box_z))

/-- Accumulated analyzer state of surface_tension.rs lines 73-75. -/
structure AnalyzerState where
  frame_count : ℕ
  p_xy_sum : ℝ
  p_z_sum : ℝ

/-- Frame-processing body of the analyzer loop, surface_tension.rs lines
80-101: increment the frame counter and add the per-frame lateral and
normal pressures to the running sums.  The sums are never reset: the
reset at lines 111-113 is commented out in the source. -/
noncomputable def processFrame (vwn volume : ℝ) (st : AnalyzerState) (f : Frame) :
    AnalyzerState :=
  { frame_count := st.frame_count + 1,
    p_xy_sum := st.p_xy_sum + (vwn - 1 / (2 * volume) * (frameTraces f).1),
    p_z_sum := st.p_z_sum + (vwn - 1 / volume * (frameTraces f).2) }

/-- The analyzer loop folded over a list of frames. -/
noncomputable def analyzerRun (vwn volume : ℝ) (fs : List Frame) (st : AnalyzerState) :
    AnalyzerState :=
  fs.foldl (processFrame vwn volume) st

/-- Ten-frame emission of surface_tension.rs lines 104-110: when the
frame count is divisible by 10, the surface tension evaluated on the
running averages is emitted. -/
noncomputable def emitTension (box_z : ℝ) (st : AnalyzerState) : Option ℝ :=
  if st.frame_count % 10 = 0 then
    some (eval_surface_tension box_z (st.p_z_sum / (st.frame_count : ℝ))
      (st.p_xy_sum / (st.frame_count : ℝ)))
  else none

/-- A concrete one-particle frame used in witnesses. -/
noncomputable def frameW : Frame :=
  { num_particles := 1, box_x := 2, box_y := 2, box_z := 2, temperature := 1,
    rx := [1], ry := [1], rz := [1] }

/-- C7 counterexample: with L = 2 and the in-range coordinates x1 = 0, x2 = 1
the raw difference is exactly half the box length, the subtract branch does
not fire, and the returned separation equals L/2 itself, which is not in
the half-open interval [-L/2, L/2) the claim asserts. -/
theorem c7_pbc_counterexample :
    (0:ℝ) < 2 ∧ (0:ℝ) ≤ 0 ∧ (0:ℝ) < 2 ∧ (0:ℝ) ≤ 1 ∧ (1:ℝ) < 2 ∧
    get_distance_with_pbc 0 1 2 (2/2) = 2/2 ∧
    ¬ get_distance_with_pbc 0 1 2 (2/2) < 2/2 := by
  unfold get_distance_with_pbc
  norm_num

/-- C7 (amended): for coordinates in [0, L) on one axis with L > 0, the
minimum-image signed separation returned by get_distance_with_pbc lies in
the interval (-L/2, L/2] (half-open at the negative end, closed at L/2,
rather than the claimed [-L/2, L/2)); its magnitude never exceeds L/2, and
when the raw absolute difference exceeds half the box length the box
length is subtracted exactly once. -/
theorem c7_pbc_amended (x1 x2 L : ℝ) (hL : 0 < L)
    (h1a : 0 ≤ x1) (h1b : x1 < L) (h2a : 0 ≤ x2) (h2b : x2 < L) :
    -(L/2) < get_distance_with_pbc x1 x2 L (L/2) ∧
    get_distance_with_pbc x1 x2 L (L/2) ≤ L/2 ∧
    |get_distance_with_pbc x1 x2 L (L/2)| ≤ L/2 ∧
    (L/2 < |x1 - x2| → get_distance_with_pbc x1 x2 L (L/2) = |x1 - x2| - L) := by
  have ha0 : 0 ≤ |x1 - x2| := abs_nonneg _
  have haL : |x1 - x2| < L := by
    rw [abs_sub_lt_iff]
    constructor <;> linarith
  simp only [get_distance_with_pbc]
  split_ifs with h h2
  · refine ⟨by linarith, by linarith, ?_, fun _ => rfl⟩
    rw [abs_of_nonpos (by linarith)]
    linarith
  · exact absurd h2 (by push_neg; linarith)
  · push_neg at h
    refine ⟨by linarith, by linarith, ?_, fun hgt => absurd hgt (not_lt.mpr h)⟩
    rw [abs_abs]
    linarith

/-- C7 witness: the amended theorem applied to the concrete in-range input
x1 = 0, x2 = 1, L = 2. -/
theorem c7_pbc_amended_witness :
    -((2:ℝ)/2) < get_distance_with_pbc 0 1 2 (2/2) ∧
    get_distance_with_pbc 0 1 2 (2/2) ≤ 2/2 ∧
    |get_distance_with_pbc 0 1 2 (2/2)| ≤ 2/2 ∧
    ((2:ℝ)/2 < |(0:ℝ) - 1| → get_distance_with_pbc 0 1 2 (2/2) = |(0:ℝ) - 1| - 2) :=
  c7_pbc_amended 0 1 2 (by norm_num) (by norm_num) (by norm_num) (by norm_num) (by norm_num)

/-- C1: a trial move is accepted exactly when dE is negative or the
uniform draw is below exp(-dE/T).  On acceptance the accepted counter is
incremented, the moved coordinates are kept, and, at steps where the
separate drift-control resync (claim C2) does not overwrite them, dE is
added to the tracked total energy and the virial delta to the tracked
virial.  On rejection the coordinates are restored and the whole state,
total energy and virial included, is unchanged.  Holds for every energy
model. -/
theorem c1_metropolis_accept_reject (em : EnergyModel) (p : MCParams) (step : ℕ)
    (r : StepRand) (s : MCState) :
    (moveAccepted em p r s ↔
      deltaE em p r s < 0 ∨ r.uAccept < Real.exp (-(deltaE em p r s) / p.temperature)) ∧
    (moveAccepted em p r s →
      (acceptRejectStep em p step r s).acceptCounter = s.acceptCounter + 1 ∧
      (acceptRejectStep em p step r s).rx = (trialPositions p r s).1 ∧
      (acceptRejectStep em p step r s).ry = (trialPositions p r s).2.1 ∧
      (acceptRejectStep em p step r s).rz = (trialPositions p r s).2.2 ∧
      (¬ step % RESYNC_INTERVAL = 0 →
        (acceptRejectStep em p step r s).energy = s.energy + deltaE em p r s ∧
        (acceptRejectStep em p step r s).virial
          = s.virial + ((newPE em p r s).2 - (oldPE em r s).2))) ∧
    (¬ moveAccepted em p r s → acceptRejectStep em p step r s = s) := by
  refine ⟨?_, ?_, ?_⟩
  · have hb : -p.beta * deltaE em p r s = -(deltaE em p r s) / p.temperature := by
      unfold MCParams.beta
      ring
    unfold moveAccepted
    rw [hb]
  · intro h
    unfold acceptRejectStep resyncStep
    rw [if_pos h]
    by_cases hm : step % RESYNC_INTERVAL = 0
    · rw [if_pos hm]
      exact ⟨rfl, rfl, rfl, rfl, fun hc => absurd hm hc⟩
    · rw [if_neg hm]
      exact ⟨rfl, rfl, rfl, rfl, fun _ => ⟨rfl, rfl⟩⟩
  · intro h
    unfold acceptRejectStep
    rw [if_neg h]

lemma exp_neg_le_one_div (x : ℝ) (hx : 0 ≤ x) : Real.exp (-x) ≤ 1 / (1 + x) := by
  rw [Real.exp_neg, one_div]
  exact inv_anti₀ (by linarith) (by linarith [Real.add_one_le_exp x])

lemma trialC10 : trialPositions pC10 rC10 sC10 = ([0.5, 1], [0, 0], [0, 0]) := by
  simp only [trialPositions, pC10, rC10, sC10, wrapCoord]
  norm_num [List.set, List.getD_cons_zero]

lemma pairOldC10 :
    pairEnergyVirial 9 0 (particleDistSq [0, 1] [0, 0] [0, 0] 0 1 10 10 10) = (0, 24) := by
  have hd : particleDistSq [0, 1] [0, 0] [0, 0] 0 1 10 10 10 = 1 := by
    simp only [particleDistSq, get_particle_distance_squared, get_distance_with_pbc]
    norm_num
  rw [hd]
  simp only [pairEnergyVirial, LJ_EPS, LJ_SIG]
  norm_num

lemma oldPEC10 : oldPE emC10 rC10 sC10 = (0, 24) := by
  simp only [oldPE, emC10, ljEM, particleEnergyLJ, rC10, sC10]
  have he : (Finset.range 2).erase 0 = {1} := by decide
  rw [he, Finset.sum_singleton]
  exact pairOldC10

lemma gdwp_no_wrap (x1 x2 L h : ℝ) (hlo : -h ≤ x1 - x2) (hhi : x1 - x2 ≤ h) (hh : 0 ≤ h) :
    get_distance_with_pbc x1 x2 L h = |x1 - x2| := by
  have hab2 : ¬ (|x1 - x2| > h) := not_lt.mpr (abs_le.mpr ⟨hlo, hhi⟩)
  have hab3 : ¬ (|x1 - x2| < -h) :=
    not_lt.mpr (le_trans (neg_nonpos.mpr hh) (abs_nonneg _))
  simp only [get_distance_with_pbc]
  rw [if_neg hab2, if_neg hab3]

lemma distSqNewC10 : particleDistSq [0.5, 1] [0, 0] [0, 0] 0 1 10 10 10 = 0.25 := by
  have e1 : particleDistSq [0.5, 1] [0, 0] [0, 0] 0 1 10 10 10 =
      (get_distance_with_pbc 0.5 1 10 5) ^ 2 + (get_distance_with_pbc 0 0 10 5) ^ 2 +
        (get_distance_with_pbc 0 0 10 5) ^ 2 := by
    simp only [particleDistSq, get_particle_distance_squared]
    norm_num
  rw [e1, gdwp_no_wrap 0.5 1 10 5 (by norm_num) (by norm_num) (by norm_num),
    gdwp_no_wrap 0 0 10 5 (by norm_num) (by norm_num) (by norm_num),
    show |(0.5 : ℝ) - 1| = 1/2 from by norm_num,
    show |(0 : ℝ) - 0| = 0 from by norm_num]
  norm_num

lemma newPEC10 : newPE emC10 pC10 rC10 sC10 = (16128, 195072) := by
  unfold newPE
  rw [trialC10]
  simp only [emC10, ljEM, particleEnergyLJ]
  have he : (Finset.range 2).erase 0 = {1} := by decide
  have hi : rC10.index = 0 := rfl
  rw [hi, he, Finset.sum_singleton, distSqNewC10]
  simp only [pairEnergyVirial, LJ_EPS, LJ_SIG]
  norm_num

lemma deltaEC10 : deltaE emC10 pC10 rC10 sC10 = 16128 := by
  simp only [deltaE, newPEC10, oldPEC10]
  norm_num

lemma rejC10 : ¬ moveAccepted emC10 pC10 rC10 sC10 := by
  unfold moveAccepted
  rw [deltaEC10]
  push_neg
  refine ⟨by norm_num, ?_⟩
  have hb : pC10.beta = 1 := by simp only [MCParams.beta, pC10]; norm_num
  rw [hb]
  have h2 : (-1 : ℝ) * 16128 = -(16128 : ℝ) := by norm_num
  rw [h2]
  have h1 := exp_neg_le_one_div 16128 (by norm_num)
  have hu : rC10.uAccept = 0.6 := rfl
  rw [hu]
  linarith

/-- C1 witness: the accept-reject theorem applied to the concrete
two-particle rejected move; the state is returned unchanged. -/
theorem c1_metropolis_accept_reject_witness :
    acceptRejectStep emC10 pC10 7 rC10 sC10 = sC10 :=
  (c1_metropolis_accept_reject emC10 pC10 7 rC10 sC10).2.2 rejC10

/-- C10: the scaling checkpoint divides the step counter by the accepted
counter with no zero-divisor guard, and a checkpoint entered with zero
accepted moves is reachable: starting from a valid two-particle state, a
single rejected trial at step 0 (a scaling checkpoint, since SCALE is on,
0 is below the equilibration step count and 0 is a multiple of
SCALE_INTERVAL) reaches the tries-per-step computation with step counter
1 and accepted counter 0, so the division there has divisor zero. -/
theorem c10_zero_divisor_reachable :
    (pC10.scaleOn = true ∧ 0 < pC10.eqSteps ∧ 0 % SCALE_INTERVAL = 0) ∧
    (accumulateStep (acceptRejectStep emC10 pC10 0 rC10 sC10)).stepCounter = 1 ∧
    (accumulateStep (acceptRejectStep emC10 pC10 0 rC10 sC10)).acceptCounter = 0 ∧
    triesPerStep (accumulateStep (acceptRejectStep emC10 pC10 0 rC10 sC10)).stepCounter
        (accumulateStep (acceptRejectStep emC10 pC10 0 rC10 sC10)).acceptCounter
      = (1 : ℝ) / (0 : ℝ) := by
  have hrej : acceptRejectStep emC10 pC10 0 rC10 sC10 = sC10 := by
    unfold acceptRejectStep
    rw [if_neg rejC10]
  rw [hrej]
  refine ⟨⟨rfl, by norm_num [pC10], rfl⟩, ?_, ?_, ?_⟩
  · simp [accumulateStep, sC10]
  · simp [accumulateStep, sC10]
  · simp [accumulateStep, sC10, triesPerStep]

lemma trialAdv : trialPositions pAdv rAdv sAdv = ([0.25], [0], [0]) := by
  simp only [trialPositions, pAdv, rAdv, sAdv, wrapCoord]
  norm_num [List.set, List.getD_cons_zero]

lemma deltaEAdv : deltaE emAdv pAdv rAdv sAdv = 0.25 := by
  unfold deltaE newPE oldPE
  rw [trialAdv]
  simp only [emAdv, sAdv, rAdv]
  norm_num [List.getD_cons_zero]

lemma rejAdv : ¬ moveAccepted emAdv pAdv rAdv sAdv := by
  unfold moveAccepted
  rw [deltaEAdv]
  push_neg
  refine ⟨by norm_num, ?_⟩
  have hb : pAdv.beta = 1 := by simp only [MCParams.beta, pAdv]; norm_num
  rw [hb]
  have h2 : (-1 : ℝ) * 0.25 = -(0.25 : ℝ) := by norm_num
  rw [h2]
  have h1 := exp_neg_le_one_div 0.25 (by norm_num)
  have hu : rAdv.uAccept = 0.9 := rfl
  rw [hu]
  linarith

/-- C2 counterexample: at step 0 (a multiple of the resync interval) with
a rejected move, the tracked energy is not overwritten by the
from-scratch recomputation: it stays at 0 while the recomputation over
the current coordinates gives 42.  The claim asserts the overwrite
happens regardless of acceptance; in the code (main.rs lines 181-186) the
recomputation sits inside the acceptance branch. -/
theorem c2_resync_counterexample :
    0 % RESYNC_INTERVAL = 0 ∧
    ¬ moveAccepted emAdv pAdv rAdv sAdv ∧
    (acceptRejectStep emAdv pAdv 0 rAdv sAdv).energy = 0 ∧
    (emAdv.totalEnergy (acceptRejectStep emAdv pAdv 0 rAdv sAdv).rx
      (acceptRejectStep emAdv pAdv 0 rAdv sAdv).ry
      (acceptRejectStep emAdv pAdv 0 rAdv sAdv).rz).1 = 42 ∧
    (acceptRejectStep emAdv pAdv 0 rAdv sAdv).energy ≠
      (emAdv.totalEnergy (acceptRejectStep emAdv pAdv 0 rAdv sAdv).rx
        (acceptRejectStep emAdv pAdv 0 rAdv sAdv).ry
        (acceptRejectStep emAdv pAdv 0 rAdv sAdv).rz).1 := by
  have hrej : acceptRejectStep emAdv pAdv 0 rAdv sAdv = sAdv := by
    unfold acceptRejectStep
    rw [if_neg rejAdv]
  rw [hrej]
  refine ⟨rfl, rejAdv, rfl, rfl, ?_⟩
  simp only [sAdv, emAdv]
  norm_num

/-- C2 (amended): the from-scratch resync at steps divisible by the
resync interval happens only when that step's move is accepted; then the
tracked energy and virial equal the recomputation over the post-move
coordinates.  When the move at such a step is rejected, no recomputation
occurs and the tracked energy and virial are simply unchanged.  Holds for
every energy model. -/
theorem c2_resync_amended (em : EnergyModel) (p : MCParams) (step : ℕ) (r : StepRand)
    (s : MCState) (hmod : step % RESYNC_INTERVAL = 0) :
    (moveAccepted em p r s →
      (acceptRejectStep em p step r s).energy =
        (em.totalEnergy (trialPositions p r s).1 (trialPositions p r s).2.1
          (trialPositions p r s).2.2).1 ∧
      (acceptRejectStep em p step r s).virial =
        (em.totalEnergy (trialPositions p r s).1 (trialPositions p r s).2.1
          (trialPositions p r s).2.2).2) ∧
    (¬ moveAccepted em p r s →
      (acceptRejectStep em p step r s).energy = s.energy ∧
      (acceptRejectStep em p step r s).virial = s.virial) := by
  constructor
  · intro h
    unfold acceptRejectStep resyncStep
    rw [if_pos h, if_pos hmod]
    exact ⟨rfl, rfl⟩
  · intro h
    unfold acceptRejectStep
    rw [if_neg h]
    exact ⟨rfl, rfl⟩

/-- C2 witness: the amended theorem applied to the concrete rejected move
at step 0. -/
theorem c2_resync_amended_witness :
    (acceptRejectStep emAdv pAdv 0 rAdv sAdv).energy = sAdv.energy ∧
    (acceptRejectStep emAdv pAdv 0 rAdv sAdv).virial = sAdv.virial :=
  (c2_resync_amended emAdv pAdv 0 rAdv sAdv (by decide)).2 rejAdv

lemma trial8 : trialPositions p8 r8 s8 = ([3.5], [0], [0]) := by
  simp only [trialPositions, p8, r8, s8, wrapCoord]
  norm_num [List.set, List.getD_cons_zero]

lemma deltaE8 : deltaE em8 p8 r8 s8 = 0 := by
  unfold deltaE newPE oldPE
  simp only [em8, ljEM, particleEnergyLJ]
  have he : (Finset.range 1).erase 0 = (∅ : Finset ℕ) := by decide
  have hi : r8.index = 0 := rfl
  rw [hi, he]
  simp

lemma acc8 : moveAccepted em8 p8 r8 s8 := by
  unfold moveAccepted
  rw [deltaE8]
  right
  have hb : p8.beta = 1 := by simp only [MCParams.beta, p8]; norm_num
  rw [hb]
  have h0 : (-1 : ℝ) * 0 = 0 := by ring
  rw [h0, Real.exp_zero]
  have hu : r8.uAccept = 0 := rfl
  rw [hu]
  norm_num

/-- C8 counterexample: with the in-box coordinate x = 0.5 in a unit box
and the CLI-configurable displacement 10, the accepted trial move of the
loop leaves the stored coordinate at 3.5, outside [0, L): the single
conditional wrap of main.rs lines 163-168 subtracts the box length only
once. -/
theorem c8_wrap_counterexample :
    ((0 : ℝ) ≤ 0.5 ∧ (0.5 : ℝ) < 1) ∧ ((0 : ℝ) ≤ 0.9 ∧ (0.9 : ℝ) < 1) ∧
    (acceptRejectStep em8 p8 1 r8 s8).rx = [3.5] ∧
    ¬ ((3.5 : ℝ) < 1) := by
  refine ⟨⟨by norm_num, by norm_num⟩, ⟨by norm_num, by norm_num⟩, ?_, by norm_num⟩
  unfold acceptRejectStep resyncStep
  rw [if_pos acc8, if_neg (by decide : ¬ (1 % RESYNC_INTERVAL = 0))]
  rw [show (trialPositions p8 r8 s8).1 = [3.5] from by rw [trial8]]

/-- C8 (amended): the initial placement and the vacuum-slab relocation
always produce coordinates in [0, L); the single conditional wrap after a
trial displacement keeps the coordinate in [0, L) provided the current
displacement is at most twice the axis length (in particular for any
displacement the scaler maintains, by claim C4).  For a CLI initial
displacement above 2 L the single wrap can leave the box, as the
counterexample shows, so the claimed unconditional invariant fails. -/
theorem c8_in_box_amended :
    (∀ L u : ℝ, 0 < L → 0 ≤ u → u < 1 →
      0 ≤ initialCoord L u ∧ initialCoord L u < L) ∧
    (∀ lzOld v z : ℝ, 0 < lzOld → 0 < v → 0 ≤ z → z < lzOld →
      0 ≤ z + slabMoveZ (lzOld * (v + 1)) (v + 1) v ∧
      z + slabMoveZ (lzOld * (v + 1)) (v + 1) v < lzOld * (v + 1)) ∧
    (∀ L x u d : ℝ, 0 < L → 0 ≤ x → x < L → 0 ≤ u → u < 1 → 0 ≤ d → d ≤ 2 * L →
      0 ≤ wrapCoord (x + (u - 0.5) * d) L ∧ wrapCoord (x + (u - 0.5) * d) L < L) := by
  refine ⟨?_, ?_, ?_⟩
  · intro L u hL hu0 hu1
    unfold initialCoord
    constructor
    · exact mul_nonneg (le_of_lt hL) hu0
    · calc L * u < L * 1 := by
            exact mul_lt_mul_of_pos_left hu1 hL
        _ = L := mul_one L
  · intro lzOld v z hlz hv hz0 hz1
    have hne : v + 1 ≠ 0 := by linarith
    have hmv : slabMoveZ (lzOld * (v + 1)) (v + 1) v = lzOld * v / 2 := by
      unfold slabMoveZ
      rw [mul_div_cancel_right₀ lzOld hne]
    rw [hmv]
    have hpos : 0 < lzOld * v := mul_pos hlz hv
    constructor
    · linarith
    · have : lzOld * (v + 1) = lzOld + lzOld * v := by ring
      rw [this]
      linarith
  · intro L x u d hL hx0 hx1 hu0 hu1 hd0 hd2
    have hud : 0 ≤ u * d := mul_nonneg hu0 hd0
    have h1ud : 0 ≤ (1 - u) * d := mul_nonneg (by linarith) hd0
    have hoff1 : (u - 0.5) * d ≤ 0.5 * d := by nlinarith
    have hoff2 : -(0.5 * d) ≤ (u - 0.5) * d := by nlinarith
    have hyL : x + (u - 0.5) * d < 2 * L := by linarith
    have hyl : -L ≤ x + (u - 0.5) * d := by linarith
    simp only [wrapCoord]
    split_ifs with h1 h2 h3
    · constructor <;> linarith
    · constructor <;> linarith
    · constructor <;> linarith
    · constructor <;> linarith

/-- C8 witness: the amended theorem applied to concrete inputs for all
three operations (placement with L = 2, u = 0.25; slab with lzOld = 1,
v = 1, z = 0.5; wrap with L = 2, x = 1, u = 0.25, d = 1). -/
theorem c8_in_box_amended_witness :
    (0 ≤ initialCoord 2 0.25 ∧ initialCoord 2 0.25 < 2) ∧
    (0 ≤ (0.5 : ℝ) + slabMoveZ (1 * (1 + 1)) (1 + 1) 1 ∧
      (0.5 : ℝ) + slabMoveZ (1 * (1 + 1)) (1 + 1) 1 < 1 * (1 + 1)) ∧
    (0 ≤ wrapCoord ((1 : ℝ) + (0.25 - 0.5) * 1) 2 ∧
      wrapCoord ((1 : ℝ) + (0.25 - 0.5) * 1) 2 < 2) :=
  ⟨c8_in_box_amended.1 2 0.25 (by norm_num) (by norm_num) (by norm_num),
   c8_in_box_amended.2.1 1 1 0.5 (by norm_num) (by norm_num) (by norm_num) (by norm_num),
   c8_in_box_amended.2.2 2 1 0.25 1 (by norm_num) (by norm_num) (by norm_num) (by norm_num)
     (by norm_num) (by norm_num) (by norm_num)⟩

lemma scalingDecisionC3 : scalingDecision 2 7 3 (9/10) = 711/700 := by
  simp only [scalingDecision, triesPerStep, TRIES_INTENDED, DISP_SCALE_FACTOR]
  push_cast
  rw [if_pos (by norm_num : (7:ℝ)/3 < 3.0 - 0.2 ∧ (9:ℝ)/10 < 2)]
  rw [abs_of_nonneg (by norm_num : (0:ℝ) ≤ 3.0 / ((7:ℝ)/3) * 0.1)]
  norm_num

/-- C3 counterexample: at the scaling checkpoint entered at step 5000
with step counter 7, accepted counter 3 and virial sum 5, the virial sum
is left at 5 rather than reset to zero, and the displacement is changed
by the scaling decision from 9/10 to 711/700; the claim asserts both
running sums are reset to zero and the displacement is left unchanged. -/
theorem c3_reset_counterexample :
    pC3.scaleOn = true ∧ 5000 < pC3.eqSteps ∧ 5000 % SCALE_INTERVAL = 0 ∧
    (scalingBlock pC3 5000 sC3).virialSum = 5 ∧ ((5:ℝ) ≠ 0) ∧
    (scalingBlock pC3 5000 sC3).displacement = 711/700 ∧
    sC3.displacement = 9/10 ∧ ((711:ℝ)/700 ≠ 9/10) := by
  have hpos : pC3.scaleOn = true ∧ 5000 < pC3.eqSteps ∧ 5000 % SCALE_INTERVAL = 0 :=
    ⟨rfl, by decide, by decide⟩
  refine ⟨rfl, by decide, by decide, ?_, by norm_num, ?_, rfl, by norm_num⟩
  · unfold scalingBlock
    rw [if_pos hpos]
    rfl
  · unfold scalingBlock
    rw [if_pos hpos]
    show scalingDecision pC3.maxDisplacement sC3.stepCounter sC3.acceptCounter sC3.displacement
        = 711/700
    have h1 : pC3.maxDisplacement = 2 := rfl
    have h2 : sC3.stepCounter = 7 := rfl
    have h3 : sC3.acceptCounter = 3 := rfl
    have h4 : sC3.displacement = 9/10 := rfl
    rw [h1, h2, h3, h4, scalingDecisionC3]

/-- C3 (amended): at the equilibration-to-sampling transition the step
counter, accepted counter, energy sum and virial sum are all reset to
zero, with positions, total energy, total virial and displacement left
unchanged.  At a displacement-scaling checkpoint the step counter,
accepted counter and energy sum are reset to zero, but the virial sum is
NOT reset, positions, total energy and total virial are unchanged, and
the displacement becomes the value of the scaling decision (so it may
change there). -/
theorem c3_reset_amended (p : MCParams) (step : ℕ) (s : MCState) :
    (step = p.eqSteps →
      (phaseReset p.eqSteps step s).stepCounter = 0 ∧
      (phaseReset p.eqSteps step s).acceptCounter = 0 ∧
      (phaseReset p.eqSteps step s).energySum = 0 ∧
      (phaseReset p.eqSteps step s).virialSum = 0 ∧
      (phaseReset p.eqSteps step s).rx = s.rx ∧
      (phaseReset p.eqSteps step s).ry = s.ry ∧
      (phaseReset p.eqSteps step s).rz = s.rz ∧
      (phaseReset p.eqSteps step s).energy = s.energy ∧
      (phaseReset p.eqSteps step s).virial = s.virial ∧
      (phaseReset p.eqSteps step s).displacement = s.displacement) ∧
    (p.scaleOn = true → step < p.eqSteps → step % SCALE_INTERVAL = 0 →
      (scalingBlock p step s).stepCounter = 0 ∧
      (scalingBlock p step s).acceptCounter = 0 ∧
      (scalingBlock p step s).energySum = 0 ∧
      (scalingBlock p step s).virialSum = s.virialSum ∧
      (scalingBlock p step s).rx = s.rx ∧
      (scalingBlock p step s).ry = s.ry ∧
      (scalingBlock p step s).rz = s.rz ∧
      (scalingBlock p step s).energy = s.energy ∧
      (scalingBlock p step s).virial = s.virial ∧
      (scalingBlock p step s).displacement =
        scalingDecision p.maxDisplacement s.stepCounter s.acceptCounter s.displacement) := by
  constructor
  · intro h
    unfold phaseReset
    rw [if_pos h]
    exact ⟨rfl, rfl, rfl, rfl, rfl, rfl, rfl, rfl, rfl, rfl⟩
  · intro h1 h2 h3
    unfold scalingBlock
    rw [if_pos ⟨h1, h2, h3⟩]
    exact ⟨rfl, rfl, rfl, rfl, rfl, rfl, rfl, rfl, rfl, rfl⟩

/-- C3 witness: the amended theorem applied to a concrete transition step
and a concrete scaling checkpoint. -/
theorem c3_reset_amended_witness :
    (phaseReset pC3.eqSteps 6000 sC3).virialSum = 0 ∧
    (phaseReset pC3.eqSteps 6000 sC3).displacement = sC3.displacement ∧
    (scalingBlock pC3 5000 sC3).energySum = 0 ∧
    (scalingBlock pC3 5000 sC3).virialSum = sC3.virialSum := by
  have h1 := (c3_reset_amended pC3 6000 sC3).1 (by decide)
  have h2 := (c3_reset_amended pC3 5000 sC3).2 rfl (by decide) (by decide)
  exact ⟨h1.2.2.2.1, h1.2.2.2.2.2.2.2.2.2, h2.2.2.1, h2.2.2.2.1⟩

lemma scalingDecision_bounds (L2 : ℝ) (_hL : 0 < L2) (c a : ℕ) (hca : a ≤ c)
    (d : ℝ) (hd0 : 0 < d) (hd1 : d ≤ 1.3 * L2) :
    0 < scalingDecision L2 c a d ∧ scalingDecision L2 c a d ≤ 1.3 * L2 := by
  simp only [scalingDecision, triesPerStep, TRIES_INTENDED, DISP_SCALE_FACTOR]
  rcases Nat.eq_zero_or_pos a with ha | ha
  · subst ha
    rw [Nat.cast_zero, div_zero, div_zero, zero_mul, abs_zero]
    split_ifs with h1 h2
    · rw [mul_zero, add_zero]
      exact ⟨hd0, hd1⟩
    · rw [mul_zero, sub_zero]
      exact ⟨hd0, hd1⟩
    · exact ⟨hd0, hd1⟩
  · have ha' : (0:ℝ) < (a:ℝ) := by exact_mod_cast ha
    have hac : (a:ℝ) ≤ (c:ℝ) := by exact_mod_cast hca
    have ht1 : (1:ℝ) ≤ (c:ℝ) / (a:ℝ) := (one_le_div ha').mpr hac
    have ht0 : (0:ℝ) < (c:ℝ) / (a:ℝ) := lt_of_lt_of_le one_pos ht1
    have hsf0 : (0:ℝ) ≤ 3.0 / ((c:ℝ) / (a:ℝ)) * 0.1 :=
      mul_nonneg (div_nonneg (by norm_num) ht0.le) (by norm_num)
    rw [abs_of_nonneg hsf0]
    have hdivle : 3.0 / ((c:ℝ) / (a:ℝ)) ≤ 3.0 := div_le_self (by norm_num) ht1
    have hsf3 : 3.0 / ((c:ℝ) / (a:ℝ)) * 0.1 ≤ 0.3 := by nlinarith
    split_ifs with h1 h2
    · have hds : d * (3.0 / ((c:ℝ) / (a:ℝ)) * 0.1) ≤ d * 0.3 :=
        mul_le_mul_of_nonneg_left hsf3 hd0.le
      have hds0 : 0 ≤ d * (3.0 / ((c:ℝ) / (a:ℝ)) * 0.1) := mul_nonneg hd0.le hsf0
      constructor
      · linarith
      · linarith [h1.2]
    · have hlt1 : 3.0 / ((c:ℝ) / (a:ℝ)) * 0.1 < 1 := by
        have h3t : 3.0 / ((c:ℝ) / (a:ℝ)) < 1 := by
          rw [div_lt_one ht0]
          linarith [h2.1]
        nlinarith
      have hds : d * (3.0 / ((c:ℝ) / (a:ℝ)) * 0.1) < d * 1 :=
        mul_lt_mul_of_pos_left hlt1 hd0
      have hds0 : 0 ≤ d * (3.0 / ((c:ℝ) / (a:ℝ)) * 0.1) := mul_nonneg hd0.le hsf0
      constructor
      · linarith
      · linarith
    · exact ⟨hd0, hd1⟩

lemma applyScalings_cons (maxDisp : ℝ) (o : ℕ × ℕ) (os : List (ℕ × ℕ)) (d : ℝ) :
    applyScalings maxDisp (o :: os) d = applyScalings maxDisp os (scalingDecision maxDisp o.1 o.2 d) :=
  rfl

lemma applyScalings_bounds (L2 : ℝ) (hL : 0 < L2) :
    ∀ (obs : List (ℕ × ℕ)) (d : ℝ), (∀ o ∈ obs, o.2 ≤ o.1) → 0 < d → d ≤ 1.3 * L2 →
      0 < applyScalings L2 obs d ∧ applyScalings L2 obs d ≤ 1.3 * L2 := by
  intro obs
  induction obs with
  | nil =>
    intro d _ h1 h2
    exact ⟨h1, h2⟩
  | cons o os ih =>
    intro d hobs h1 h2
    have hb := scalingDecision_bounds L2 hL o.1 o.2 (hobs o (by simp)) d h1 h2
    rw [applyScalings_cons]
    exact ih (scalingDecision L2 o.1 o.2 d) (fun o' ho' => hobs o' (by simp [ho'])) hb.1 hb.2

/-- C4 counterexample: a single scaling decision with window counters
step counter 1, accepted counter 1 (a legal window: accepted does not
exceed tried, observed tries-per-acceptance 1 is below target minus the
tolerance) applied to a displacement 0.9 with half box length 1:
the decision increases the displacement to 1.17, above the half box
length, so the claimed interval (0, L/2] is left. -/
theorem c4_displacement_counterexample :
    0 < (0.9 : ℝ) ∧ (0.9 : ℝ) ≤ 1 ∧ (1 : ℕ) ≤ 1 ∧
    scalingDecision 1 1 1 0.9 = 1.17 ∧ ¬ ((1.17 : ℝ) ≤ 1) := by
  refine ⟨by norm_num, by norm_num, le_refl 1, ?_, by norm_num⟩
  simp only [scalingDecision, triesPerStep, TRIES_INTENDED, DISP_SCALE_FACTOR]
  push_cast
  rw [if_pos (by norm_num : (1:ℝ)/1 < 3.0 - 0.2 ∧ (0.9:ℝ) < 1)]
  rw [abs_of_nonneg (by norm_num : (0:ℝ) ≤ 3.0 / ((1:ℝ)/1) * 0.1)]
  norm_num

/-- C4 (amended): for every initial displacement in (0, L/2] and every
sequence of scaling decisions whose observed window counters satisfy
accepted at most tried (which the loop maintains), the displacement stays
positive and does not exceed 1.3 times L/2.  A single increase can push
it above L/2 itself by up to the factor 1 + scale-factor with
scale-factor at most 0.3, so the claimed interval (0, L/2] must widen to
(0, 1.3 (L/2)]. -/
theorem c4_displacement_amended (L2 d0 : ℝ) (hL : 0 < L2) (hd0 : 0 < d0) (hd1 : d0 ≤ L2)
    (obs : List (ℕ × ℕ)) (hobs : ∀ o ∈ obs, o.2 ≤ o.1) :
    0 < applyScalings L2 obs d0 ∧ applyScalings L2 obs d0 ≤ 1.3 * L2 :=
  applyScalings_bounds L2 hL obs d0 hobs hd0 (by linarith)

/-- C4 witness: the amended theorem applied to the half box length 1, the
initial displacement 0.5 and one observation window with five tries and
one acceptance. -/
theorem c4_displacement_amended_witness :
    0 < applyScalings 1 [(5, 1)] 0.5 ∧ applyScalings 1 [(5, 1)] 0.5 ≤ 1.3 * 1 :=
  c4_displacement_amended 1 0.5 (by norm_num) (by norm_num) (by norm_num) [(5, 1)] (by decide)

/-- C5: code bug, evaluated on the code.  With the sentinel output
interval -1 the Rust truncated remainder step % -1 equals 0 for every
step, so the write condition of main.rs lines 245-249 holds at every
step, and a frame is written during the loop at every sampling step (here
at step 1 with zero equilibration steps), contradicting the claim and the
CLI help text of main.rs line 343 stating that -1 only writes the last
frame. -/
theorem c5_sentinel_writes_during_loop :
    (∀ step : ℕ, Int.tmod (step : ℤ) (-1) = 0) ∧
    writesFrame (-1) 0 false 1 := by
  constructor
  · intro step
    simp [Int.tmod_neg]
  · unfold writesFrame
    decide

/-- C6: code bug, evaluated on the code.  The end-of-run "Acceptance"
percentage of main.rs line 260 computes 1 / (accepted / steps) * 100, the
reciprocal of the claimed accepted / steps * 100.  For 4 trial steps and
1 accepted move the final report prints 400 while the claim gives 25; the
equilibration progress output of main.rs lines 216-217 computes the
claimed value 25. -/
theorem c6_final_acceptance_inverted :
    finalAcceptanceRate 4 1 = 400 ∧
    acceptanceRateEquil 4 1 = 25 ∧
    ((1 : ℝ) / 4) * 100 = 25 := by
  unfold finalAcceptanceRate acceptanceRateEquil triesPerStep
  norm_num

lemma analyzerRun_spec (vwn volume : ℝ) :
    ∀ (fs : List Frame) (st : AnalyzerState),
      analyzerRun vwn volume fs st =
        ⟨st.frame_count + fs.length,
         st.p_xy_sum + (fs.map (fun f => vwn - (frameTraces f).1 / (2 * volume))).sum,
         st.p_z_sum + (fs.map (fun f => vwn - (frameTraces f).2 / volume)).sum⟩ := by
  intro fs
  induction fs with
  | nil =>
    intro st
    simp [analyzerRun]
  | cons f fs ih =>
    intro st
    have h1 : analyzerRun vwn volume (f :: fs) st =
        analyzerRun vwn volume fs (processFrame vwn volume st f) := rfl
    rw [h1, ih]
    simp only [processFrame, List.map_cons, List.sum_cons, List.length_cons,
      AnalyzerState.mk.injEq]
    refine ⟨by omega, by ring, by ring⟩

/-- C9: the analyzer state after processing any list of frames holds the
frame count and, since the running sums are never reset, the full sums
over all processed frames of the per-frame pressures
Pxy = idealTerm - traceXY/(2V) and Pzz = idealTerm - traceZ/V, with
idealTerm = (T/eps) x density of the first frame and the traces summed
over all unique unordered pairs (definition frameTraces); and whenever
the frame count is divisible by 10 the emitted surface tension equals
(Lz/2) x (Pzz average - Pxy average). -/
theorem c9_analyzer (f0 : Frame) (fs : List Frame) (bz : ℝ) (st : AnalyzerState)
    (hmod : st.frame_count % 10 = 0) :
    analyzerRun (idealTerm f0) (f0.box_x * f0.box_y * f0.box_z) fs ⟨0, 0, 0⟩ =
      ⟨fs.length,
       (fs.map (fun f =>
         idealTerm f0 - (frameTraces f).1 / (2 * (f0.box_x * f0.box_y * f0.box_z)))).sum,
       (fs.map (fun f =>
         idealTerm f0 - (frameTraces f).2 / (f0.box_x * f0.box_y * f0.box_z))).sum⟩ ∧
    emitTension bz st =
      some (bz / 2 *
        (st.p_z_sum / (st.frame_count : ℝ) - st.p_xy_sum / (st.frame_count : ℝ))) := by
  constructor
  · rw [analyzerRun_spec]
    simp
  · unfold emitTension eval_surface_tension
    rw [if_pos hmod]

/-- C9 witness: the theorem applied to the concrete frame frameW, the
empty frame list and the analyzer state with frame count 10 and sums 3
and 7. -/
theorem c9_analyzer_witness :
    analyzerRun (idealTerm frameW) (frameW.box_x * frameW.box_y * frameW.box_z) [] ⟨0, 0, 0⟩ =
      ⟨([] : List Frame).length,
       (([] : List Frame).map (fun f =>
         idealTerm frameW - (frameTraces f).1 / (2 * (frameW.box_x * frameW.box_y * frameW.box_z)))).sum,
       (([] : List Frame).map (fun f =>
         idealTerm frameW - (frameTraces f).2 / (frameW.box_x * frameW.box_y * frameW.box_z))).sum⟩ ∧
    emitTension 2 ⟨10, 3, 7⟩ =
      some ((2 : ℝ) / 2 * ((7 : ℝ) / ((10 : ℕ) : ℝ) - (3 : ℝ) / ((10 : ℕ) : ℝ))) :=
  c9_analyzer frameW [] 2 ⟨10, 3, 7⟩ (by decide)

end LJMC
